import Mathlib

/-!
Verification development for the `bakscanner` repository (`src/app.py`).

The Python source is shallowly embedded: each string-manipulating helper of
`app.py` is translated to a Lean function over `List Char` (Python `str`
semantics restricted to the ASCII operations the program uses), with
`String`-level wrappers keeping the source's names.  The prober/worker
control flow of `scan_single_target` / `scan_worker` is embedded as pure
functions over an explicit network oracle; the shared task state mutated
under `TASKS_LOCK` is represented by the final values of its fields
(every mutation in the source is an O(1) field write performed under the
single global lock, so the final state of a run is the same as that of the
serialized run the embedding computes).
-/

namespace Bakscanner

/-- The whitespace predicate of Python `str.strip()` (ASCII subset:
space, tab, newline, carriage return, vertical tab, form feed). -/
def pySpace (c : Char) : Bool :=
  c == ' ' || c == '\t' || c == '\n' || c == '\r' || c == '\x0b' || c == '\x0c'

/-- Python `str.strip()` on the character list: drop whitespace from both
ends. -/
def pyStripL (l : List Char) : List Char :=
  ((l.dropWhile pySpace).reverse.dropWhile pySpace).reverse

/-- Python `str.strip()`. -/
def pyStrip (s : String) : String := ⟨pyStripL s.data⟩

/-- Python `str.lower()` on one character (ASCII subset, the only case the
program exercises). -/
def pyLowerChar (c : Char) : Char :=
  if 'A' ≤ c && c ≤ 'Z' then Char.ofNat (c.toNat + 32) else c

/-- Python `str.lower()` (ASCII subset). -/
def pyLower (s : String) : String := ⟨s.data.map pyLowerChar⟩

/-- Does the character list end with `'/'`?  Models Python
`str.endswith("/")`. -/
def endsSlashL (l : List Char) : Bool :=
  l.reverse.head? == some '/'

/-- `app.py` line 18: the backup-like URL suffixes `BACKUP_SUFFIXES`. -/
def BACKUP_SUFFIXES : List String :=
  [".bak", ".zip", ".rar", ".7z", ".tar", ".tar.gz", ".tgz",
   ".sql", ".db", ".old", ".backup"]

/-- `app.py` line 51 `looks_like_backup`: the lower-cased URL must end with
one of the configured backup suffixes. -/
def looks_like_backup (url : String) : Bool :=
  let lower := url.data.map pyLowerChar
  BACKUP_SUFFIXES.any (fun s => s.data.isSuffixOf lower)

/-- `app.py` line 67 `normalize_base_url` on the character list: strip the
input; an empty result stays empty; otherwise prepend `http://` unless the
string already starts with `http://` or `https://`, and append `/` unless
it already ends with `/`. -/
def normListFn (l : List Char) : List Char :=
  let t := pyStripL l
  if t = [] then []
  else
    let u := if "http://".data.isPrefixOf t || "https://".data.isPrefixOf t
             then t else "http://".data ++ t
    if endsSlashL u then u else u ++ ['/']

/-- `app.py` line 67 `normalize_base_url`. -/
def normalize_base_url (s : String) : String := ⟨normListFn s.data⟩

/-- Does the string start with `"http://"`?  Models Python
`str.startswith("http://")`. -/
def startsHttp (s : String) : Bool := "http://".data.isPrefixOf s.data

/-- Does the string start with `"https://"`? -/
def startsHttps (s : String) : Bool := "https://".data.isPrefixOf s.data

/-- Does the string end with `'/'`? -/
def endsSlash (s : String) : Bool := endsSlashL s.data

/-- Formalizes the spec's phrase "ends with exactly one trailing `/`":
the last character is `'/'` and the character before it (when present) is
not. -/
def exactlyOneTrailingSlash (s : String) : Bool :=
  match s.data.reverse with
  | [] => false
  | c :: rest =>
    c == '/' && (match rest with
                 | [] => true
                 | d :: _ => !(d == '/'))

/-- Is the character an ASCII decimal digit? -/
def isAsciiDigit (c : Char) : Bool := '0' ≤ c && c ≤ '9'

/-- Numeric value of an ASCII digit list. -/
def digitsVal (l : List Char) : Nat :=
  l.foldl (fun acc c => acc * 10 + (c.toNat - 48)) 0

/-- Modelled from Python `int(str)` (restricted to ASCII: surrounding
whitespace, an optional single sign, then a non-empty digit run; anything
else raises `ValueError`, modelled as `none`). -/
def pyIntParse (l : List Char) : Option Int :=
  let t := pyStripL l
  match t with
  | '+' :: ds =>
    if ds ≠ [] ∧ ds.all isAsciiDigit then some (digitsVal ds) else none
  | '-' :: ds =>
    if ds ≠ [] ∧ ds.all isAsciiDigit then some (-(digitsVal ds : Int)) else none
  | ds =>
    if ds ≠ [] ∧ ds.all isAsciiDigit then some (digitsVal ds) else none

/-- `app.py` line 124: `int(resp.headers.get("Content-Length") or 0)`.
A missing header (`none`) or an empty header value makes the `or` fall
back to the integer `0`; a non-empty value goes through `int(...)`, whose
`ValueError` (modelled as `none`) is not caught anywhere in
`scan_single_target`. -/
def parse_content_length (h : Option String) : Option Int :=
  match h with
  | none => some 0
  | some s => if s = "" then some 0 else pyIntParse s.data

/-- Python substring membership `needle in hay` on character lists. -/
def strContainsL (needle : List Char) : List Char → Bool
  | [] => needle.isEmpty
  | c :: rest => needle.isPrefixOf (c :: rest) || strContainsL needle rest

/-- Python substring membership `needle in hay`. -/
def strContainsB (hay needle : String) : Bool := strContainsL needle.data hay.data

/-- `app.py` lines 122-131 as the spec's pure Backup Classifier decision
function: status must be 200 or 206 and the final URL must look like a
backup (else the "invalid" branch), and then the text/html + small-size
false-positive guard must not fire.  The content type is the raw header
(`none` and `""` coincide through `or ""`), lower-cased as in line 123;
the content length is the already-parsed integer. -/
def classify (status : Nat) (contentTypeHdr : Option String)
    (contentLength : Int) (url : String) : Bool :=
  let ct := pyLower (contentTypeHdr.getD "")
  if (status = 200 ∨ status = 206) ∧ looks_like_backup url = true then
    if strContainsB ct "text/html" = true ∧ contentLength < 2 * 1024 * 1024
    then false
    else true
  else false

/-- Modelled from Python `str.splitlines` (restricted to the ASCII line
breaks `\n`, `\r`, `\r\n`); the accumulator holds the current line
reversed. -/
def splitlinesGo : List Char → List Char → List (List Char)
  | [], acc => if acc.isEmpty then [] else [acc.reverse]
  | '\r' :: '\n' :: rest, acc => acc.reverse :: splitlinesGo rest []
  | '\n' :: rest, acc => acc.reverse :: splitlinesGo rest []
  | '\r' :: rest, acc => acc.reverse :: splitlinesGo rest []
  | c :: rest, acc => splitlinesGo rest (c :: acc)

/-- Python `str.splitlines` (ASCII line breaks). -/
def pySplitlines (l : List Char) : List (List Char) := splitlinesGo l []

/-- `app.py` lines 204-210 / 216-220: split a block of text into lines,
strip each line, keep the non-empty ones.  Used for both the targets text
box and the uploaded targets file. -/
def targetLines (content : String) : List String :=
  (((pySplitlines content.data).map pyStripL).filter (· ≠ [])).map
    (fun l => (⟨l⟩ : String))

/-- `app.py` lines 234-249: dictionary lines are stripped and then the
leading `/` and `\` characters removed (`lstrip("/\\")`); empty results
are dropped. -/
def pathLines (content : String) : List String :=
  (((pySplitlines content.data).map
      (fun l => (pyStripL l).dropWhile (fun c => c == '/' || c == '\\'))).filter
    (· ≠ [])).map (fun l => (⟨l⟩ : String))

/-- `app.py` line 225 `list(dict.fromkeys(targets))`: de-duplication that
keeps the first occurrence of each element; `seen` holds the keys already
emitted. -/
def dedupFirstAux (seen : List String) : List String → List String
  | [] => []
  | x :: xs =>
    if x ∈ seen then dedupFirstAux seen xs
    else x :: dedupFirstAux (x :: seen) xs

/-- `list(dict.fromkeys(l))`: first-occurrence-preserving de-duplication. -/
def dedupFirst (l : List String) : List String := dedupFirstAux [] l

/-- `app.py` lines 203-220: the accumulated target list before
de-duplication — text-box lines (the whole box is stripped first,
line 204, and skipped when empty) followed by uploaded-file lines. -/
def raw_targets (targetsText : String) (targetsFile : Option String) :
    List String :=
  (if pyStripL targetsText.data = [] then []
   else targetLines (pyStrip targetsText)) ++
  (targetsFile.map targetLines).getD []

/-- `app.py` lines 203-225: the resolved target list of a create-task
request — the accumulated lines de-duplicated keeping first
occurrences. -/
def resolve_targets (targetsText : String) (targetsFile : Option String) :
    List String :=
  dedupFirst (raw_targets targetsText targetsFile)

/-- `app.py` line 24: the built-in default candidate-path list. -/
def DEFAULT_PATHS : List String :=
  ["index.php.bak", "index.jsp.bak", "config.php.bak", "wwwroot.zip",
   "website.zip", "backup.zip", "site_backup.zip", "db.sql", "backup.sql"]

/-- `app.py` lines 230-255: the resolved candidate-path list — text-box
lines (the whole box stripped first, line 234) then uploaded-file lines,
with NO de-duplication; if both sources yield nothing, the built-in
default list is used. -/
def resolve_paths (dictText : String) (dictFile : Option String) :
    List String :=
  let fromText := if pyStripL dictText.data = [] then []
                  else pathLines (pyStrip dictText)
  let fromFile := (dictFile.map pathLines).getD []
  let paths := fromText ++ fromFile
  if paths = [] then DEFAULT_PATHS else paths

/-- `app.py` lines 257-266: resolve the requested worker count.  The form
value defaults to `"5"` when absent, `or "5"` replaces an empty string,
`int(...)` failure (the `except`) resets to 5, and the result is clamped
below by 1 (non-positive values) and above by 50. -/
def resolve_max_workers (threadsForm : Option String) : Int :=
  let raw := threadsForm.getD "5"
  let raw2 := if raw = "" then "5" else raw
  let m := match pyIntParse (pyStripL raw2.data) with
           | none => 5
           | some n => n
  let m2 := if m ≤ 0 then 1 else m
  if m2 > 50 then 50 else m2

/-- Modelled from `urllib.parse.urlparse(u).netloc` restricted to the
`http(s)://` base URLs produced by `normalize_base_url`: the authority is
the run of characters after the scheme separator up to the first `/`,
`?` or `#`. -/
def netlocL (u : List Char) : List Char :=
  if "http://".data.isPrefixOf u then
    (u.drop 7).takeWhile (fun c => !(c == '/' || c == '?' || c == '#'))
  else if "https://".data.isPrefixOf u then
    (u.drop 8).takeWhile (fun c => !(c == '/' || c == '?' || c == '#'))
  else []

/-- `app.py` lines 94, 102-103: the per-target directory tag — the netloc
of the normalized base URL with `:` replaced by `_`. -/
def host_tag (target : String) : String :=
  ⟨(netlocL (normListFn target.data)).map (fun c => if c == ':' then '_' else c)⟩

/-- The part of `url.split("://", 1)` after the first `"://"` occurrence
(`none` when the separator does not occur, in which case Python's `[-1]`
yields the whole string). -/
def afterSchemeSepL : List Char → Option (List Char)
  | [] => none
  | ':' :: '/' :: '/' :: rest => some rest
  | _ :: rest => afterSchemeSepL rest

/-- `app.py` line 133: `resp.url.split("://", 1)[-1].replace("/", "_")`. -/
def safe_name (u : String) : String :=
  ⟨((afterSchemeSepL u.data).getD u.data).map
    (fun c => if c == '/' then '_' else c)⟩

/-- Modelled from `os.path.join(a, b)` on POSIX paths: an absolute `b`
replaces `a`; otherwise the parts are glued with a single `/` unless `a`
is empty or already ends with one. -/
def pyPathJoinL (a b : List Char) : List Char :=
  if b.head? = some '/' then b
  else if a = [] then b
  else if endsSlashL a then a ++ b
  else a ++ '/' :: b

/-- `os.path.join` on strings. -/
def pyPathJoin (a b : String) : String := ⟨pyPathJoinL a.data b.data⟩

/-- `app.py` lines 133-135: the save path of a matched response — output
root, then the host tag derived from the target, then the
scheme-stripped, slash-replaced final URL. -/
def savePath (outputDir target respUrl : String) : String :=
  pyPathJoin (pyPathJoin outputDir (host_tag target)) (safe_name respUrl)

/-- The base URL up to and including its last `/` (the prefix `urljoin`
keeps for a relative reference). -/
def takeToLastSlash (l : List Char) : List Char :=
  ((l.reverse).dropWhile (fun c => !(c == '/'))).reverse

/-- Modelled from `urllib.parse.urljoin(base, rel)`, restricted to the
inputs this program produces: an `http(s)://` base from
`normalize_base_url` and a reference without dot-segments, query or
fragment.  A reference with a scheme wins outright; a `//`-reference
keeps only the base's scheme; an absolute path keeps scheme and
authority; a relative path replaces everything after the base's last
`/`. -/
def urljoinL (b r : List Char) : List Char :=
  if r = [] then b
  else if "http://".data.isPrefixOf r || "https://".data.isPrefixOf r then r
  else
    let scheme := if "https://".data.isPrefixOf b then "https".data
                  else "http".data
    if "//".data.isPrefixOf r then scheme ++ ':' :: r
    else if r.head? = some '/' then scheme ++ "://".data ++ netlocL b ++ r
    else takeToLastSlash b ++ r

/-- `urljoin` on strings (`app.py` line 108). -/
def urljoin (base rel : String) : String := ⟨urljoinL base.data rel.data⟩

/-- The response metadata visible to `scan_single_target` for one probed
URL: status code, the raw `Content-Type` and `Content-Length` headers
(absent headers are `none`), the final post-redirect URL `resp.url`, and
whether streaming the body to disk would succeed (`save_response_content`
raising is caught at lines 143-144). -/
structure Response where
  status : Nat
  contentType : Option String
  contentLength : Option String
  finalUrl : String
  saveOk : Bool

/-- Outcome of one `session.get`: a `requests.RequestException` (caught at
line 118) or a response. -/
inductive NetOutcome where
  | netErr (msg : String)
  | netResp (r : Response)

/-- Result of the path loop of `scan_single_target`: log lines appended,
final found count, and `some msg` when an uncaught exception aborted the
loop. -/
structure LoopOut where
  logs : List String
  found : Nat
  raised : Option String

/-- `app.py` lines 107-146, the per-path loop of `scan_single_target`,
driven by a network oracle `net` from the full URL to the request's
outcome.  Faithful points: the `Content-Length` parse of line 124 runs on
EVERY response, before the status check, and its `ValueError` is caught
nowhere in this function, aborting the loop; the HTML false-positive
guard, the save with its caught write failure, and the per-branch log
lines mirror the source (the found counter only advances when the save
succeeds). -/
def probeLoop (outputDir target base : String) (net : String → NetOutcome) :
    List String → LoopOut
  | [] => ⟨[], 0, none⟩
  | p :: rest =>
    let fullUrl := urljoin base p
    let testLog := "[+] 测试：" ++ fullUrl
    match net fullUrl with
    | .netErr e =>
      let o := probeLoop outputDir target base net rest
      ⟨testLog :: ("[-] 请求错误：" ++ e) :: o.logs, o.found, o.raised⟩
    | .netResp r =>
      match parse_content_length r.contentLength with
      | none => ⟨[testLog], 0, some "ValueError"⟩
      | some cl =>
        let ct := pyLower (r.contentType.getD "")
        if (r.status = 200 ∨ r.status = 206) ∧ looks_like_backup r.finalUrl = true
        then
          if strContainsB ct "text/html" = true ∧ cl < 2 * 1024 * 1024 then
            let o := probeLoop outputDir target base net rest
            ⟨testLog :: ("[-] 看起来是HTML页面，跳过：" ++ r.finalUrl) :: o.logs,
             o.found, o.raised⟩
          else
            let sp := savePath outputDir target r.finalUrl
            let found2 := "[!] 发现疑似备份文件：" ++ r.finalUrl
            let saved2 := "    保存到：" ++ sp
            let o := probeLoop outputDir target base net rest
            if r.saveOk then
              ⟨testLog :: found2 :: saved2 :: o.logs, o.found + 1, o.raised⟩
            else
              ⟨testLog :: found2 :: saved2 :: "[-] 保存失败" :: o.logs,
               o.found, o.raised⟩
        else
          let o := probeLoop outputDir target base net rest
          ⟨testLog :: ("[-] 无效（HTTP " ++ toString r.status ++ "）：" ++ r.finalUrl)
             :: o.logs, o.found, o.raised⟩

/-- Final effect of one Target Prober run on the shared task: its log
lines, its final found count, whether it aborted with an uncaught
exception, and whether it reached the `finished_targets` increment of
lines 149-150. -/
structure ProbeOutcome where
  logs : List String
  found : Nat
  raised : Option String
  incremented : Bool

/-- `app.py` lines 92-153 `scan_single_target`: normalize the target (an
empty normalization returns early, before any status update or
increment), run the path loop, and — only when no exception escaped the
loop — reach the final `finished_targets` increment.  The milestone log
line of line 153 mentions task-global counters and is left out of the
local log model; the per-target status enum writes carry no information
the claims need and are likewise not modelled. -/
def scan_single_target (outputDir target : String) (paths : List String)
    (net : String → NetOutcome) : ProbeOutcome :=
  let base := normalize_base_url target
  if base = "" then ⟨[], 0, none, false⟩
  else
    let startLog := "\n===== 开始扫描：" ++ base ++ " ====="
    let o := probeLoop outputDir target base net paths
    match o.raised with
    | some e => ⟨startLog :: o.logs, o.found, some e, false⟩
    | none => ⟨startLog :: o.logs, o.found, none, true⟩

/-- Final task counters observed by the Progress Reporter once
`scan_worker` returns. -/
structure TaskOutcome where
  total : Nat
  finished : Nat
  done : Bool

/-- `app.py` lines 156-191 `scan_worker`: one prober per target; each
prober that reaches its increment adds one to `finished_targets`; a
prober whose exception is only caught at the `f.result()` boundary
(lines 182-187) adds nothing; the `finally` block sets `done = True`
unconditionally.  The pool's interleaving is irrelevant to the final
counters because every mutation is a single field write under
`TASKS_LOCK`, so the final state equals that of this serialized run. -/
def scan_worker (outputDir : String) (targets paths : List String)
    (net : String → NetOutcome) : TaskOutcome :=
  let rs := targets.map (fun t => scan_single_target outputDir t paths net)
  ⟨targets.length, rs.countP (fun o => o.incremented), true⟩

/-! ### Helper lemmas -/

theorem dropWhile_eq_self_of_head {p : Char → Bool} {l : List Char}
    (h : ∀ c, l.head? = some c → p c = false) : l.dropWhile p = l := by
  cases l with
  | nil => rfl
  | cons a t => simp [List.dropWhile_cons, h a rfl]

theorem pyStripL_eq_self {l : List Char}
    (h1 : ∀ c, l.head? = some c → pySpace c = false)
    (h2 : ∀ c, l.getLast? = some c → pySpace c = false) : pyStripL l = l := by
  unfold pyStripL
  rw [dropWhile_eq_self_of_head h1]
  rw [dropWhile_eq_self_of_head (by
    intro c hc
    rw [List.head?_reverse] at hc
    exact h2 c hc)]
  exact List.reverse_reverse l

theorem isPrefixOf_append_left {p l : List Char} (s : List Char)
    (h : p.isPrefixOf l = true) : p.isPrefixOf (l ++ s) = true := by
  rw [List.isPrefixOf_iff_prefix] at h ⊢
  exact h.trans (List.prefix_append l s)

theorem isPrefixOf_self_append (p s : List Char) :
    p.isPrefixOf (p ++ s) = true := by
  rw [List.isPrefixOf_iff_prefix]
  exact List.prefix_append p s

theorem head?_of_isPrefixOf {p l : List Char} (h : p.isPrefixOf l = true)
    (c : Char) (hc : p.head? = some c) : l.head? = some c := by
  rw [List.isPrefixOf_iff_prefix] at h
  obtain ⟨u, hu⟩ := h
  subst hu
  cases p with
  | nil => simp at hc
  | cons a t => simpa using hc

theorem endsSlashL_concat (l : List Char) : endsSlashL (l ++ ['/']) = true := by
  simp [endsSlashL]

theorem endsSlashL_append {l : List Char} (a : List Char) (h : l ≠ []) :
    endsSlashL (a ++ l) = endsSlashL l := by
  unfold endsSlashL
  rw [List.reverse_append, List.head?_append]
  cases hl : l.reverse with
  | nil => exact absurd (by simpa using hl) h
  | cons c r => simp

theorem getLast?_of_endsSlashL {l : List Char} (h : endsSlashL l = true) :
    l.getLast? = some '/' := by
  unfold endsSlashL at h
  rw [← List.head?_reverse]
  cases hl : l.reverse.head? with
  | none => rw [hl] at h; simp at h
  | some c => rw [hl] at h; simp at h; simp [hl, h]

theorem or_isPrefixOf_append {p q l : List Char} (s : List Char)
    (h : (p.isPrefixOf l || q.isPrefixOf l) = true) :
    (p.isPrefixOf (l ++ s) || q.isPrefixOf (l ++ s)) = true := by
  simp only [Bool.or_eq_true] at h ⊢
  rcases h with h | h
  · exact Or.inl (isPrefixOf_append_left s h)
  · exact Or.inr (isPrefixOf_append_left s h)

/-- A string that starts with `'h'`, ends with `'/'` and carries an
`http(s)://` prefix is a fixed point of `normListFn`. -/
theorem normListFn_fix {r : List Char} (hh : r.head? = some 'h')
    (hl : r.getLast? = some '/')
    (hp : ("http://".data.isPrefixOf r || "https://".data.isPrefixOf r) = true) :
    normListFn r = r := by
  have hstrip : pyStripL r = r :=
    pyStripL_eq_self
      (fun c hc => by rw [hh] at hc; cases hc; decide)
      (fun c hc => by rw [hl] at hc; cases hc; decide)
  have hne : r ≠ [] := by
    intro h
    rw [h] at hh
    simp at hh
  have hes : endsSlashL r = true := by
    unfold endsSlashL
    rw [List.head?_reverse, hl]
    decide
  unfold normListFn
  rw [hstrip, if_neg hne]
  simp only [hp, if_true]
  rw [if_pos hes]

/-- Path Normalizer idempotence at the character-list level. -/
theorem normListFn_idem (l : List Char) :
    normListFn (normListFn l) = normListFn l := by
  by_cases ht : pyStripL l = []
  · have h0 : normListFn l = [] := by
      unfold normListFn
      rw [if_pos ht]
    rw [h0]
    rfl
  · have hr : normListFn l =
        (if endsSlashL (if ("http://".data.isPrefixOf (pyStripL l) ||
              "https://".data.isPrefixOf (pyStripL l)) then pyStripL l
            else "http://".data ++ pyStripL l) then
          (if ("http://".data.isPrefixOf (pyStripL l) ||
              "https://".data.isPrefixOf (pyStripL l)) then pyStripL l
            else "http://".data ++ pyStripL l)
         else
          (if ("http://".data.isPrefixOf (pyStripL l) ||
              "https://".data.isPrefixOf (pyStripL l)) then pyStripL l
            else "http://".data ++ pyStripL l) ++ ['/']) := by
      unfold normListFn
      rw [if_neg ht]
    set t := pyStripL l with hts
    set u := if ("http://".data.isPrefixOf t || "https://".data.isPrefixOf t)
             then t else "http://".data ++ t with hus
    have hu_head : u.head? = some 'h' := by
      rw [hus]
      by_cases hp : ("http://".data.isPrefixOf t ||
          "https://".data.isPrefixOf t) = true
      · rw [if_pos hp]
        simp only [Bool.or_eq_true] at hp
        rcases hp with hp | hp
        · exact head?_of_isPrefixOf hp 'h' rfl
        · exact head?_of_isPrefixOf hp 'h' rfl
      · rw [if_neg hp]
        rfl
    have hu_pfx : ("http://".data.isPrefixOf u ||
        "https://".data.isPrefixOf u) = true := by
      rw [hus]
      by_cases hp : ("http://".data.isPrefixOf t ||
          "https://".data.isPrefixOf t) = true
      · rw [if_pos hp]
        exact hp
      · rw [if_neg hp]
        simp only [Bool.or_eq_true]
        exact Or.inl (isPrefixOf_self_append _ _)
    have hu_ne : u ≠ [] := by
      intro h
      rw [h] at hu_head
      simp at hu_head
    by_cases he : endsSlashL u = true
    · rw [hr, if_pos he]
      exact normListFn_fix hu_head (getLast?_of_endsSlashL he) hu_pfx
    · rw [hr, if_neg he]
      refine normListFn_fix ?_ (List.getLast?_concat u) (or_isPrefixOf_append _ hu_pfx)
      rw [List.head?_append, hu_head]
      rfl

/-! ### Claim theorems -/

/-- C9: the Path Normalizer is idempotent — applying `normalize_base_url`
twice yields the same result as applying it once, for every input
string. -/
theorem C9_normalize_base_url_idempotent (s : String) :
    normalize_base_url (normalize_base_url s) = normalize_base_url s := by
  apply String.ext
  exact normListFn_idem s.data

/-- C10: the Path Normalizer's scheme detection is case-sensitive — the
input `"HTTP://example.com"` does not pass the lowercase `startswith`
checks, so the normalizer prepends a second scheme and produces
`"http://HTTP://example.com/"`. -/
theorem C10_normalize_case_sensitive :
    startsHttp "HTTP://example.com" = false ∧
    startsHttps "HTTP://example.com" = false ∧
    normalize_base_url "HTTP://example.com" = "http://HTTP://example.com/" := by
  decide

/-- C4 (counterexample): `"example.com//"` is a non-empty raw host string
without a scheme prefix, yet the Path Normalizer's output
`"http://example.com//"` does not end with exactly one trailing slash —
the claim as stated is false. -/
theorem C4_counterexample :
    ("example.com//" : String) ≠ "" ∧
    startsHttp "example.com//" = false ∧
    startsHttps "example.com//" = false ∧
    normalize_base_url "example.com//" = "http://example.com//" ∧
    exactlyOneTrailingSlash (normalize_base_url "example.com//") = false := by
  decide

/-- C4 (amended): for every raw host string that is non-empty after
trimming and does not start with a scheme prefix, the Path Normalizer's
output starts with `"http://"` and ends with a trailing `"/"`; it ends
with exactly one trailing `"/"` whenever the trimmed input does not
already end with a slash (trailing slashes of the input are preserved,
not collapsed). -/
theorem C4_normalize_scheme_and_slash (s : String)
    (h0 : pyStripL s.data ≠ [])
    (h1 : "http://".data.isPrefixOf (pyStripL s.data) = false)
    (h2 : "https://".data.isPrefixOf (pyStripL s.data) = false) :
    startsHttp (normalize_base_url s) = true ∧
    endsSlash (normalize_base_url s) = true ∧
    (endsSlashL (pyStripL s.data) = false →
      exactlyOneTrailingSlash (normalize_base_url s) = true) := by
  have hp : ("http://".data.isPrefixOf (pyStripL s.data) ||
      "https://".data.isPrefixOf (pyStripL s.data)) = false := by
    rw [h1, h2]
    rfl
  have hr : (normalize_base_url s).data =
      (if endsSlashL ("http://".data ++ pyStripL s.data) then
        "http://".data ++ pyStripL s.data
       else ("http://".data ++ pyStripL s.data) ++ ['/']) := by
    show normListFn s.data = _
    unfold normListFn
    rw [if_neg h0]
    simp only [hp, Bool.false_eq_true, if_false]
  have hesu : endsSlashL ("http://".data ++ pyStripL s.data) =
      endsSlashL (pyStripL s.data) := endsSlashL_append _ h0
  by_cases he : endsSlashL (pyStripL s.data) = true
  · rw [he] at hesu
    rw [hesu, if_pos rfl] at hr
    refine ⟨?_, ?_, ?_⟩
    · show "http://".data.isPrefixOf (normalize_base_url s).data = true
      rw [hr]
      exact isPrefixOf_self_append _ _
    · show endsSlashL (normalize_base_url s).data = true
      rw [hr]
      exact hesu
    · intro hfalse
      rw [hfalse] at he
      cases he
  · rw [Bool.not_eq_true] at he
    rw [he] at hesu
    rw [hesu, if_neg (by simp)] at hr
    refine ⟨?_, ?_, ?_⟩
    · show "http://".data.isPrefixOf (normalize_base_url s).data = true
      rw [hr, List.append_assoc]
      exact isPrefixOf_self_append _ _
    · show endsSlashL (normalize_base_url s).data = true
      rw [hr]
      exact endsSlashL_concat _
    · intro _
      show (match (normalize_base_url s).data.reverse with
        | [] => false
        | c :: rest =>
          c == '/' && (match rest with
                       | [] => true
                       | d :: _ => !(d == '/'))) = true
      rw [hr]
      cases hts : (pyStripL s.data).reverse with
      | nil => exact absurd (by simpa using hts) h0
      | cons c rest =>
        have hc : (c == '/') = false := by
          unfold endsSlashL at he
          rw [hts] at he
          simpa using he
        rw [List.reverse_append, List.reverse_append, hts]
        simp [hc]

/-- C6: the Backup Classifier rejects a small disguised HTML page
(status 200, `text/html`, declared length 1000, URL ending in `.zip`) and
accepts the same response once the declared length reaches 3 MiB. -/
theorem C6_classifier_html_size_guard :
    classify 200 (some "text/html; charset=utf-8") 1000 "http://x/backup.zip"
      = false ∧
    classify 200 (some "text/html; charset=utf-8") (3 * 1024 * 1024)
      "http://x/backup.zip" = true := by
  decide

/-- C7: whenever the HTTP status is neither 200 nor 206, the Backup
Classifier returns no-match regardless of content type, declared length
and final URL. -/
theorem C7_classifier_needs_status (status : Nat) (ct : Option String)
    (cl : Int) (url : String) (h1 : status ≠ 200) (h2 : status ≠ 206) :
    classify status ct cl url = false := by
  have hC : ¬ ((status = 200 ∨ status = 206) ∧
      looks_like_backup url = true) := by
    rintro ⟨h | h, -⟩
    · exact h1 h
    · exact h2 h
  unfold classify
  rw [if_neg hC]

/-- Witness for C7 at a concrete input. -/
theorem C7_classifier_needs_status_witness :
    (404 : Nat) ≠ 200 ∧ (404 : Nat) ≠ 206 ∧
    classify 404 (some "application/zip") (3 * 1024 * 1024)
      "http://x/backup.zip" = false :=
  ⟨by decide, by decide,
   C7_classifier_needs_status 404 (some "application/zip") (3 * 1024 * 1024)
     "http://x/backup.zip" (by decide) (by decide)⟩

/-- Witness for C4 at a concrete input. -/
theorem C4_normalize_scheme_and_slash_witness :
    startsHttp (normalize_base_url "example.com") = true ∧
    endsSlash (normalize_base_url "example.com") = true ∧
    exactlyOneTrailingSlash (normalize_base_url "example.com") = true :=
  ⟨(C4_normalize_scheme_and_slash "example.com" (by decide) (by decide)
      (by decide)).1,
   (C4_normalize_scheme_and_slash "example.com" (by decide) (by decide)
      (by decide)).2.1,
   (C4_normalize_scheme_and_slash "example.com" (by decide) (by decide)
      (by decide)).2.2 (by decide)⟩

/-- C3 (counterexample): a concurrency request of `"0"` parses
successfully, so the `except` branch is never taken; the non-positive
clamp then resolves it to 1, not to the default 5 — the claim as stated
is false. -/
theorem C3_counterexample :
    resolve_max_workers (some "0") = 1 ∧ (1 : Int) ≠ 5 := by
  decide

/-- C3 (amended): a non-numeric (unparseable) concurrency request
resolves to the default 5, and so does a missing or empty one; a request
that parses to an integer `n` is clamped — to 1 when `n ≤ 0`, to 50 when
`n > 50`, and kept as `n` otherwise.  In particular a request of `"0"`
resolves to 1, not to the default 5. -/
theorem C3_resolve_max_workers (s : String) (hne : s ≠ "") :
    (pyIntParse (pyStripL s.data) = none →
      resolve_max_workers (some s) = 5) ∧
    (∀ n : Int, pyIntParse (pyStripL s.data) = some n →
      resolve_max_workers (some s) =
        if n ≤ 0 then 1 else if n > 50 then 50 else n) ∧
    resolve_max_workers none = 5 ∧ resolve_max_workers (some "") = 5 := by
  refine ⟨?_, ?_, by decide, by decide⟩
  · intro h
    simp only [resolve_max_workers, Option.getD_some]
    rw [if_neg hne, h]
    decide
  · intro n h
    simp only [resolve_max_workers, Option.getD_some]
    rw [if_neg hne, h]
    by_cases hn : n ≤ 0
    · rw [if_pos hn, if_pos hn]
      decide
    · rw [if_neg hn, if_neg hn]

/-- Witness for C3 at the concrete input `"0"`. -/
theorem C3_resolve_max_workers_witness :
    ("0" : String) ≠ "" ∧ pyIntParse (pyStripL "0".data) = some 0 ∧
    resolve_max_workers (some "0") =
      (if (0 : Int) ≤ 0 then 1 else if (0 : Int) > 50 then 50 else 0) :=
  ⟨by decide, by decide,
   (C3_resolve_max_workers "0" (by decide)).2.1 0 (by decide)⟩

/-- C2 (counterexample): an unparseable non-empty `Content-Length` header
is NOT treated as zero — `int("abc")` raises an uncaught `ValueError`
inside the path loop, so the Target Prober aborts instead of classifying
the response. -/
theorem C2_counterexample :
    parse_content_length (some "abc") = none ∧
    (scan_single_target "downloads" "x" ["backup.zip"]
      (fun _ => NetOutcome.netResp
        ⟨200, some "text/html", some "abc", "http://x/backup.zip", true⟩)).raised
      = some "ValueError" := by
  decide

/-- C2 (amended): a MISSING (or empty) `Content-Length` header is treated
as declared length zero, so classification proceeds and an HTML response
with such a length is always rejected by the false-positive guard; an
unparseable non-empty header instead raises an uncaught error that aborts
that target's probe. -/
theorem C2_content_length_default :
    parse_content_length none = some 0 ∧
    parse_content_length (some "") = some 0 ∧
    (∀ ct url : String, strContainsB (pyLower ct) "text/html" = true →
      classify 200 (some ct) 0 url = false) ∧
    (∀ s : String, s ≠ "" → pyIntParse s.data = none →
      parse_content_length (some s) = none) := by
  refine ⟨by decide, by decide, ?_, ?_⟩
  · intro ct url h
    unfold classify
    simp only [Option.getD_some]
    split
    · rw [if_pos ⟨by exact h, by norm_num⟩]
    · rfl
  · intro s hs hp
    simp only [parse_content_length]
    rw [if_neg hs]
    exact hp

/-- Witness for C2 at concrete inputs. -/
theorem C2_content_length_default_witness :
    strContainsB (pyLower "text/html; charset=utf-8") "text/html" = true ∧
    classify 200 (some "text/html; charset=utf-8") 0 "http://x/backup.zip"
      = false ∧
    ("abc" : String) ≠ "" ∧ pyIntParse "abc".data = none ∧
    parse_content_length (some "abc") = none :=
  ⟨by decide,
   C2_content_length_default.2.2.1 "text/html; charset=utf-8"
     "http://x/backup.zip" (by decide),
   by decide, by decide,
   C2_content_length_default.2.2.2 "abc" (by decide) (by decide)⟩

theorem mem_dedupFirstAux {x : String} :
    ∀ {l seen : List String}, x ∈ dedupFirstAux seen l → x ∈ l ∧ x ∉ seen
  | [], _, h => by simp [dedupFirstAux] at h
  | z :: rest, seen, h => by
    unfold dedupFirstAux at h
    by_cases hz : z ∈ seen
    · rw [if_pos hz] at h
      obtain ⟨h1, h2⟩ := mem_dedupFirstAux h
      exact ⟨List.mem_cons_of_mem z h1, h2⟩
    · rw [if_neg hz] at h
      rcases List.mem_cons.1 h with h | h
      · subst h
        exact ⟨List.mem_cons_self x rest, hz⟩
      · obtain ⟨h1, h2⟩ := mem_dedupFirstAux h
        refine ⟨List.mem_cons_of_mem z h1, fun hx => h2 ?_⟩
        exact List.mem_cons_of_mem z hx

theorem mem_dedupFirstAux_of_mem {x : String} :
    ∀ {l seen : List String}, x ∈ l → x ∉ seen → x ∈ dedupFirstAux seen l
  | [], _, h, _ => by simp at h
  | z :: rest, seen, h, hs => by
    unfold dedupFirstAux
    by_cases hz : z ∈ seen
    · rw [if_pos hz]
      rcases List.mem_cons.1 h with h | h
      · exact absurd (h ▸ hz) hs
      · exact mem_dedupFirstAux_of_mem h hs
    · rw [if_neg hz]
      rcases List.mem_cons.1 h with h | h
      · exact h ▸ List.mem_cons_self z _
      · by_cases hxz : x = z
        · exact hxz ▸ List.mem_cons_self z _
        · refine List.mem_cons_of_mem z (mem_dedupFirstAux_of_mem h ?_)
          intro hx
          rcases List.mem_cons.1 hx with hx | hx
          · exact hxz hx
          · exact hs hx

theorem dedupFirstAux_nodup :
    ∀ (l seen : List String), (dedupFirstAux seen l).Nodup
  | [], _ => List.nodup_nil
  | z :: rest, seen => by
    unfold dedupFirstAux
    by_cases hz : z ∈ seen
    · rw [if_pos hz]
      exact dedupFirstAux_nodup rest seen
    · rw [if_neg hz]
      refine List.nodup_cons.2 ⟨fun hmem => ?_, dedupFirstAux_nodup rest _⟩
      exact (mem_dedupFirstAux hmem).2 (List.mem_cons_self z seen)

theorem dedupFirstAux_cons (s : List String) (x : String) (xs : List String) :
    dedupFirstAux s (x :: xs) =
      if x ∈ s then dedupFirstAux s xs else x :: dedupFirstAux (x :: s) xs :=
  rfl

theorem dedupFirstAux_sublist :
    ∀ (l seen : List String), List.Sublist (dedupFirstAux seen l) l
  | [], _ => List.Sublist.refl []
  | z :: rest, seen => by
    unfold dedupFirstAux
    by_cases hz : z ∈ seen
    · rw [if_pos hz]
      exact (dedupFirstAux_sublist rest seen).cons z
    · rw [if_neg hz]
      exact (dedupFirstAux_sublist rest (z :: seen)).cons₂ z

theorem dedupFirstAux_congr :
    ∀ (l : List String) {s₁ s₂ : List String},
      (∀ x, x ∈ s₁ ↔ x ∈ s₂) → dedupFirstAux s₁ l = dedupFirstAux s₂ l
  | [], _, _, _ => rfl
  | z :: rest, s₁, s₂, h => by
    unfold dedupFirstAux
    by_cases hz : z ∈ s₁
    · rw [if_pos hz, if_pos ((h z).1 hz)]
      exact dedupFirstAux_congr rest h
    · rw [if_neg hz, if_neg (fun hz2 => hz ((h z).2 hz2))]
      refine congrArg (z :: ·) (dedupFirstAux_congr rest fun x => ?_)
      simp only [List.mem_cons]
      exact or_congr Iff.rfl (h x)

theorem dedupFirstAux_filter (a : String) :
    ∀ (l : List String) (seen : List String),
      dedupFirstAux seen (l.filter (· ≠ a)) = dedupFirstAux (a :: seen) l
  | [], _ => rfl
  | z :: rest, seen => by
    by_cases hz : z = a
    · subst hz
      rw [List.filter_cons_of_neg (by simp)]
      show dedupFirstAux seen (rest.filter (· ≠ z)) = _
      rw [dedupFirstAux_filter z rest seen, dedupFirstAux_cons,
         if_pos (List.mem_cons_self z seen)]
    · rw [List.filter_cons_of_pos (by simpa using hz)]
      show dedupFirstAux seen (z :: rest.filter (· ≠ a)) = _
      rw [dedupFirstAux_cons, dedupFirstAux_cons]
      by_cases hzs : z ∈ seen
      · rw [if_pos hzs, if_pos (List.mem_cons_of_mem a hzs)]
        exact dedupFirstAux_filter a rest seen
      · rw [if_neg hzs,
           if_neg (fun h => by rcases List.mem_cons.1 h with h | h
                               exacts [hz h, hzs h])]
        refine congrArg (z :: ·) ?_
        rw [dedupFirstAux_filter a rest (z :: seen)]
        exact dedupFirstAux_congr rest (by
          intro x
          simp only [List.mem_cons]
          tauto)

/-- C8: create-task target lists are de-duplicated preserving
first-occurrence order (no duplicates, the result is an order-preserving
sublist of the accumulated input with the same members, and the head —
the first occurrence — is kept while later duplicates are filtered out),
while candidate-path lists are NOT de-duplicated: the dictionary input
`"db.sql\ndb.sql"` resolves to both occurrences, and a prober run over
that list probes both, producing two identical test log lines. -/
theorem C8_targets_deduplicated_paths_not :
    (∀ text file, (resolve_targets text file).Nodup) ∧
    (∀ text file,
      List.Sublist (resolve_targets text file) (raw_targets text file)) ∧
    (∀ text file x,
      x ∈ resolve_targets text file ↔ x ∈ raw_targets text file) ∧
    (∀ (a : String) (l : List String),
      dedupFirst (a :: l) = a :: dedupFirst (l.filter (· ≠ a))) ∧
    resolve_paths "db.sql\ndb.sql" none = ["db.sql", "db.sql"] ∧
    (scan_single_target "downloads" "a.example"
        (resolve_paths "db.sql\ndb.sql" none)
        (fun _ => NetOutcome.netErr "connection error")).logs.count
      "[+] 测试：http://a.example/db.sql" = 2 := by
  refine ⟨?_, ?_, ?_, ?_, by decide, by decide⟩
  · intro text file
    exact dedupFirstAux_nodup _ _
  · intro text file
    exact dedupFirstAux_sublist _ _
  · intro text file x
    constructor
    · intro h
      exact (mem_dedupFirstAux h).1
    · intro h
      exact mem_dedupFirstAux_of_mem h (List.not_mem_nil x)
  · intro a l
    show dedupFirstAux [] (a :: l) = _
    rw [dedupFirstAux_cons, if_neg (List.not_mem_nil a)]
    exact congrArg (a :: ·) (dedupFirstAux_filter a l []).symm

theorem eq_of_append_cons_eq (c : Char) :
    ∀ (l1 : List Char) {l2 r1 r2 : List Char},
      l1 ++ c :: r1 = l2 ++ c :: r2 → c ∉ l1 → c ∉ l2 → l1 = l2
  | [], l2, r1, r2, h, _, h2 => by
    cases l2 with
    | nil => rfl
    | cons b t =>
      simp only [List.nil_append, List.cons_append] at h
      injection h with hc _
      exact absurd (by rw [hc]; exact List.mem_cons_self b t) h2
  | a :: t1, l2, r1, r2, h, h1, h2 => by
    cases l2 with
    | nil =>
      simp only [List.cons_append, List.nil_append] at h
      injection h with hc _
      exact absurd (by rw [← hc]; exact List.mem_cons_self a t1) h1
    | cons b t2 =>
      simp only [List.cons_append] at h
      injection h with hab ht
      subst hab
      rw [eq_of_append_cons_eq c t1 ht
        (fun hm => h1 (List.mem_cons_of_mem a hm))
        (fun hm => h2 (List.mem_cons_of_mem a hm))]

theorem mem_netlocL {u : List Char} {c : Char} (h : c ∈ netlocL u) :
    (!(c == '/' || c == '?' || c == '#')) = true := by
  unfold netlocL at h
  split at h
  · exact List.mem_takeWhile_imp
      (p := fun c => !(c == '/' || c == '?' || c == '#')) h
  · split at h
    · exact List.mem_takeWhile_imp
        (p := fun c => !(c == '/' || c == '?' || c == '#')) h
    · simp at h

theorem host_tag_no_slash (t : String) : '/' ∉ (host_tag t).data := by
  intro hm
  rcases List.mem_map.1 hm with ⟨c, hc, hfc⟩
  by_cases hcc : (c == ':') = true
  · rw [if_pos hcc] at hfc
    exact absurd hfc (by decide)
  · rw [if_neg hcc] at hfc
    subst hfc
    have := mem_netlocL hc
    simp at this

theorem safe_name_no_slash (u : String) : '/' ∉ (safe_name u).data := by
  intro hm
  rcases List.mem_map.1 hm with ⟨c, _, hfc⟩
  by_cases hcc : (c == '/') = true
  · rw [if_pos hcc] at hfc
    exact absurd hfc (by decide)
  · rw [if_neg hcc] at hfc
    subst hfc
    simp at hcc

theorem head?_ne_slash_of_no_slash {b : List Char} (hb : '/' ∉ b) :
    b.head? ≠ some '/' := by
  cases b with
  | nil => simp
  | cons c t =>
    intro h
    injection h with h
    exact hb (h ▸ List.mem_cons_self c t)

theorem endsSlashL_eq_false_of_no_slash {b : List Char} (hb : '/' ∉ b) :
    endsSlashL b = false := by
  unfold endsSlashL
  cases hrev : b.reverse with
  | nil => rfl
  | cons c t =>
    have hc : c ∈ b := by
      rw [← List.mem_reverse, hrev]
      exact List.mem_cons_self c t
    have : c ≠ '/' := fun h => hb (h ▸ hc)
    simpa using this

theorem pyPathJoinL_no_slash_right {a b : List Char} (hb : '/' ∉ b) :
    pyPathJoinL a b =
      (if a = [] then [] else
       if endsSlashL a then a else a ++ ['/']) ++ b := by
  unfold pyPathJoinL
  rw [if_neg (head?_ne_slash_of_no_slash hb)]
  by_cases ha : a = []
  · rw [if_pos ha, if_pos ha]
    rfl
  · rw [if_neg ha, if_neg ha]
    by_cases he : endsSlashL a = true
    · rw [if_pos he, if_pos he]
    · rw [if_neg he, if_neg he]
      simp

/-- The save path of `app.py` lines 133-135 decomposes as an
`out`-dependent prefix, then the host tag, a separator, and the safe
name, as soon as the host tag is non-empty. -/
theorem savePath_decomp (out t u : String)
    (hne : (host_tag t).data ≠ []) :
    (savePath out t u).data =
      (if out.data = [] then [] else
       if endsSlashL out.data then out.data else out.data ++ ['/']) ++
      ((host_tag t).data ++ '/' :: (safe_name u).data) := by
  have hslash := host_tag_no_slash t
  have hinner : (pyPathJoin out (host_tag t)).data =
      (if out.data = [] then [] else
       if endsSlashL out.data then out.data else out.data ++ ['/']) ++
      (host_tag t).data := by
    show pyPathJoinL out.data (host_tag t).data = _
    exact pyPathJoinL_no_slash_right hslash
  show pyPathJoinL (pyPathJoin out (host_tag t)).data (safe_name u).data = _
  rw [pyPathJoinL_no_slash_right (safe_name_no_slash u), hinner]
  have hdne : (if out.data = [] then [] else
      if endsSlashL out.data then out.data else out.data ++ ['/']) ++
      (host_tag t).data ≠ [] := by
    intro h
    exact hne (List.append_eq_nil.1 h).2
  rw [if_neg hdne]
  have hesd : endsSlashL ((if out.data = [] then [] else
      if endsSlashL out.data then out.data else out.data ++ ['/']) ++
      (host_tag t).data) = false := by
    rw [endsSlashL_append _ hne]
    exact endsSlashL_eq_false_of_no_slash hslash
  rw [if_neg (by simp [hesd])]
  simp

/-- C5 (counterexample): the distinct target identifier strings `"a"` and
`"a/"` normalize to the same base URL, so with candidate path `"x.bak"`
they derive the SAME save file path — the claim as stated is false. -/
theorem C5_counterexample :
    ("a" : String) ≠ "a/" ∧
    savePath "downloads" "a" (urljoin (normalize_base_url "a") "x.bak") =
      savePath "downloads" "a/" (urljoin (normalize_base_url "a/") "x.bak") := by
  decide

/-- C5 (amended): derived save file paths are distinct whenever the two
targets' derived host tags are distinct (and non-empty) — for any final
URLs; distinctness of the raw target identifier strings alone does not
guarantee it, since distinct identifiers can normalize to the same base
URL. -/
theorem C5_distinct_host_tags_distinct_paths (out t1 t2 u1 u2 : String)
    (h12 : host_tag t1 ≠ host_tag t2)
    (h1 : host_tag t1 ≠ "") (h2 : host_tag t2 ≠ "") :
    savePath out t1 u1 ≠ savePath out t2 u2 := by
  intro heq
  have hne1 : (host_tag t1).data ≠ [] := fun h => h1 (String.ext h)
  have hne2 : (host_tag t2).data ≠ [] := fun h => h2 (String.ext h)
  have hd := congrArg String.data heq
  rw [savePath_decomp out t1 u1 hne1, savePath_decomp out t2 u2 hne2] at hd
  have hcancel := List.append_cancel_left hd
  exact h12 (String.ext (eq_of_append_cons_eq '/' _ hcancel
    (host_tag_no_slash t1) (host_tag_no_slash t2)))

/-- Witness for C5 at concrete inputs. -/
theorem C5_distinct_host_tags_distinct_paths_witness :
    host_tag "a" ≠ host_tag "b" ∧ host_tag "a" ≠ "" ∧ host_tag "b" ≠ "" ∧
    savePath "downloads" "a" "http://a/x.bak" ≠
      savePath "downloads" "b" "http://b/x.bak" :=
  ⟨by decide, by decide, by decide,
   C5_distinct_host_tags_distinct_paths "downloads" "a" "b"
     "http://a/x.bak" "http://b/x.bak" (by decide) (by decide) (by decide)⟩

/-- C1 (counterexample): one target whose single probe returns a response
with the unparseable `Content-Length` header `"abc"` — the prober aborts
before its `finished_targets` increment, yet the worker's `finally` block
still marks the task done, so `done = true` holds with
`finished_targets ≠ total_targets`.  The claim as stated is false. -/
theorem C1_counterexample :
    (scan_worker "downloads" ["a"] ["x.bak"]
      (fun _ => NetOutcome.netResp
        ⟨200, some "application/zip", some "abc", "http://a/x.bak", true⟩)).done
      = true ∧
    (scan_worker "downloads" ["a"] ["x.bak"]
      (fun _ => NetOutcome.netResp
        ⟨200, some "application/zip", some "abc", "http://a/x.bak", true⟩)).finished
      ≠
    (scan_worker "downloads" ["a"] ["x.bak"]
      (fun _ => NetOutcome.netResp
        ⟨200, some "application/zip", some "abc", "http://a/x.bak", true⟩)).total := by
  decide

/-- C1 (amended): once the worker returns, `done` is always true and
`finished_targets ≤ total_targets`; `finished_targets = total_targets`
holds exactly when every submitted prober completed normally, i.e.
reached its increment — an uncaught per-prober exception (or an
empty-normalizing target) leaves the counter short while `done` is still
set by the `finally` block. -/
theorem C1_done_implies_finished (out : String) (targets paths : List String)
    (net : String → NetOutcome) :
    (scan_worker out targets paths net).done = true ∧
    (scan_worker out targets paths net).finished ≤
      (scan_worker out targets paths net).total ∧
    ((∀ t ∈ targets,
        (scan_single_target out t paths net).incremented = true) →
      (scan_worker out targets paths net).finished =
        (scan_worker out targets paths net).total) := by
  refine ⟨rfl, ?_, ?_⟩
  · show List.countP _
      (targets.map (fun t => scan_single_target out t paths net)) ≤
      targets.length
    have h := List.countP_le_length (fun o => ProbeOutcome.incremented o)
      (l := targets.map (fun t => scan_single_target out t paths net))
    rwa [List.length_map] at h
  · intro hall
    show List.countP _
      (targets.map (fun t => scan_single_target out t paths net)) =
      targets.length
    rw [List.countP_map]
    exact List.countP_eq_length.2 fun t ht => hall t ht

/-- Witness for C1: a run in which every prober completes normally, so
the finished counter reaches the total. -/
theorem C1_done_implies_finished_witness :
    (scan_worker "downloads" ["a"] []
      (fun _ => NetOutcome.netErr "e")).finished =
    (scan_worker "downloads" ["a"] []
      (fun _ => NetOutcome.netErr "e")).total :=
  (C1_done_implies_finished "downloads" ["a"] []
    (fun _ => NetOutcome.netErr "e")).2.2 (by decide)

end Bakscanner
